import Mathlib

/-!
Verification development for the Discord RPC client in
`src/discord/discordrpc.cpp` / `src/discord/discordrpc.h`.

The C++ class `DiscordRPC` is embedded shallowly:

* bytes are `Fin 256`; the 8-byte frame header is modelled with explicit
  little-endian serialization of 32-bit unsigned values, and the
  `static_cast<int>` applied to the parsed `quint32` length in
  `ProcessIncomingData` is modelled exactly (two's-complement wrap);
* the while-loop of `ProcessIncomingData` is a fuel-indexed recursion; a
  terminating run of the C++ loop removes at least one byte per iteration, so
  `buffer length + 1` units of fuel are exhausted exactly on the inputs where
  the C++ loop never terminates (`none`);
* Qt's JSON library (`QJsonDocument::fromJson`, `toJson`) is an external
  capability per the specification; it is abstracted as a `parse` / `serialize`
  parameter over an inductive `Json` value type, while the object lookups
  performed by `HandleMessage` (`QJsonObject::value`, `QJsonValue::toString`)
  are modelled concretely;
* the mutable members of `DiscordRPC` (`state_`, `nonce_`, `reconnect_delay_`,
  `read_buffer_`, the single-shot reconnect timer and the socket) form the
  record `RPC`; each Qt slot / public method is a function on `RPC` that also
  returns the externally visible socket effects (`Effect`).
-/

/-- A wire byte. -/
abbrev Byte := Fin 256

/-- Truncation of a natural number to one byte. -/
def mkByte (n : Nat) : Byte := ⟨n % 256, Nat.mod_lt _ (by decide)⟩

/-- Little-endian serialization of a 32-bit unsigned value into four bytes, as
`frame.append(reinterpret_cast<const char*>(&v), sizeof(v))` lays out a
`quint32` on a little-endian machine. -/
def toLE4 (n : Nat) : List Byte :=
  [mkByte n, mkByte (n / 256), mkByte (n / 65536), mkByte (n / 16777216)]

/-- Little-endian deserialization of four bytes into a 32-bit unsigned value,
as the `memcpy` into a `quint32` does in `DiscordRPC::ProcessIncomingData`. -/
def fromLE4 : List Byte → Nat
  | [a, b, c, d] => a.val + 256 * b.val + 65536 * c.val + 16777216 * d.val
  | _ => 0

/-- The value of `static_cast<int>(v)` for a `quint32` value `v`
(two's-complement wrap into a signed 32-bit integer). -/
def u32ToInt (n : Nat) : Int :=
  if n < 2147483648 then (n : Int) else (n : Int) - 4294967296

/-- `DiscordRPC::State`. -/
inductive ConnState where
  | Disconnected
  | Connecting
  | SentHandshake
  | Connected
deriving DecidableEq, Repr

/-- JSON values: the model of the contents of Qt's `QJsonValue` /
`QJsonObject` / `QJsonDocument`. An object is a finite list of key-value pairs
(all keys produced by this development are distinct). -/
inductive Json where
  | null
  | bool (b : Bool)
  | num (n : Int)
  | str (s : String)
  | arr (elems : List Json)
  | obj (fields : List (String × Json))

/-- `QJsonObject::value`: the value stored under a key, if present. -/
def jValue (fields : List (String × Json)) (key : String) : Option Json :=
  (fields.find? (fun kv => kv.1 == key)).map (fun kv => kv.2)

/-- `QJsonValue::toString` applied to `QJsonObject::value(key)`: the string
content, or the empty string for a missing or non-string value. -/
def jObjString (fields : List (String × Json)) (key : String) : String :=
  match jValue fields key with
  | some (Json.str s) => s
  | _ => ""

/-- `DiscordRPC::HandleMessage`, as a function of the connection state.
`parse` stands for `QJsonDocument::fromJson`; `none` models a parse error, and
a document that is not an object is likewise ignored. In state
`SentHandshake`, an object whose `cmd` field reads `DISPATCH` and whose `evt`
field reads `READY` moves the machine to `Connected`; nothing else changes the
state. -/
def handleMessage (parse : List Byte → Option Json) (st : ConnState)
    (data : List Byte) : ConnState :=
  match parse data with
  | some (Json.obj fields) =>
    if st = ConnState.SentHandshake then
      if jObjString fields "cmd" = "DISPATCH" ∧ jObjString fields "evt" = "READY" then
        ConnState.Connected
      else st
    else st
  | _ => st

/-- Externally visible socket effects. -/
inductive Effect where
  | write (bytes : List Byte)
  | disconnect
deriving DecidableEq, Repr

/-- Result of one run of the `ProcessIncomingData` while-loop: final connection
state, remaining receive buffer, socket actions in order, and the
(opcode, payload) frames extracted, in order. -/
structure DecRes where
  state : ConnState
  buffer : List Byte
  actions : List Effect
  events : List (Nat × List Byte)
deriving DecidableEq, Repr

/-- State effect of the opcode switch in `ProcessIncomingData`: only opcode 1
(`Frame`) touches the connection state, through `HandleMessage`. -/
def dispatchState (parse : List Byte → Option Json) (st : ConnState)
    (opcode : Nat) (data : List Byte) : ConnState :=
  if opcode = 1 then handleMessage parse st data else st

/-- Socket effect of the opcode switch in `ProcessIncomingData`: opcode 2
(`Close`) requests a transport disconnect; opcode 3 (`Ping`) writes back a
`Pong` frame carrying the received 32-bit length field and the extracted
payload; opcodes 0 (`Handshake`), 4 (`Pong`) and everything else are ignored. -/
def dispatchActions (opcode : Nat) (lengthField : Nat) (data : List Byte) :
    List Effect :=
  if opcode = 2 then [Effect.disconnect]
  else if opcode = 3 then
    [Effect.write (toLE4 4 ++ toLE4 lengthField ++ data)]
  else []

/-- The while-loop of `DiscordRPC::ProcessIncomingData`, with explicit fuel.
Each iteration: while at least 8 bytes are buffered, read the two little-endian
header fields; if `read_buffer_.size() < header_size + static_cast<int>(length)`
(signed comparison, hence the `u32ToInt`), stop and keep the buffer; otherwise
slice out `length` payload bytes (`QByteArray::mid` clamps to the available
bytes), remove `header_size + length` bytes — computed in 32-bit unsigned
arithmetic, and clamped to the buffer size by `QByteArray::remove` — and
dispatch on the opcode. `none` means the fuel ran out, which corresponds to an
iteration of the C++ loop that removes no bytes and hence repeats forever. -/
def processLoop (parse : List Byte → Option Json) :
    Nat → ConnState → List Byte → Option DecRes
  | 0, _, _ => none
  | fuel + 1, st, buf =>
    if buf.length < 8 then some ⟨st, buf, [], []⟩
    else
      let opcode := fromLE4 (buf.take 4)
      let len := fromLE4 ((buf.drop 4).take 4)
      if (buf.length : Int) < 8 + u32ToInt len then some ⟨st, buf, [], []⟩
      else
        let data := (buf.drop 8).take len
        let rest := buf.drop ((8 + len) % 4294967296)
        match processLoop parse fuel (dispatchState parse st opcode data) rest with
        | none => none
        | some r =>
          some ⟨r.state, r.buffer, dispatchActions opcode len data ++ r.actions,
            (opcode, data) :: r.events⟩

/-- One full call of `DiscordRPC::ProcessIncomingData` on a given connection
state and receive-buffer content. -/
def processIncomingData (parse : List Byte → Option Json) (st : ConnState)
    (buf : List Byte) : Option DecRes :=
  processLoop parse (buf.length + 1) st buf

/-- The frame encoder shared by `SendHandshake`, `SendFrame` and the `Pong`
reply: a 4-byte little-endian opcode, a 4-byte little-endian payload length
(`static_cast<quint32>(data.size())`), then the payload. -/
def encodeFrame (opcode : Nat) (payload : List Byte) : List Byte :=
  toLE4 opcode ++ toLE4 payload.length ++ payload

/-- A list of (opcode, payload) frames, encoded and concatenated. -/
def flatFrames (frames : List (Nat × List Byte)) : List Byte :=
  frames.flatMap (fun f => encodeFrame f.1 f.2)

/-- Connection state after dispatching a list of frames in order. -/
def runState (parse : List Byte → Option Json) (st : ConnState)
    (frames : List (Nat × List Byte)) : ConnState :=
  frames.foldl (fun s f => dispatchState parse s f.1 f.2) st

/-- Socket actions produced by dispatching a list of well-formed frames in
order. -/
def runActions (frames : List (Nat × List Byte)) : List Effect :=
  frames.flatMap (fun f => dispatchActions f.1 f.2.length f.2)

/-- `kReconnectMinDelayMs`: the backoff floor, in milliseconds. -/
def kReconnectMinDelayMs : Nat := 500

/-- `kReconnectMaxDelayMs`: the backoff ceiling, in milliseconds. -/
def kReconnectMaxDelayMs : Nat := 60000

/-- `kRpcVersion`. -/
def kRpcVersion : Int := 1

/-- `discord::DiscordPresence`. Strings model `QString` (empty string =
default-constructed); the integral fields are exact integers, faithful on the
value ranges the encoder distinguishes. The C++ field `instance` is a Lean
keyword, hence the trailing underscore. -/
structure Presence where
  type : Int
  status_display_type : Int
  name : String
  state : String
  details : String
  start_timestamp : Int
  end_timestamp : Int
  large_image_key : String
  large_image_text : String
  small_image_key : String
  small_image_text : String
  party_id : String
  party_size : Int
  party_max : Int
  party_privacy : Int
  match_secret : String
  join_secret : String
  spectate_secret : String
  instance_ : Bool

/-- The `DiscordPresence` default constructor: zero numbers, empty strings,
`instance=false`. -/
def defaultPresence : Presence :=
  { type := 0, status_display_type := 0, name := "", state := "", details := "",
    start_timestamp := 0, end_timestamp := 0, large_image_key := "",
    large_image_text := "", small_image_key := "", small_image_text := "",
    party_id := "", party_size := 0, party_max := 0, party_privacy := 0,
    match_secret := "", join_secret := "", spectate_secret := "",
    instance_ := false }

/-- The `activity` object built by `DiscordRPC::CreatePresenceMessage`, with
the `QJsonObject` insertions modelled as ordered key-value pairs (all keys are
distinct, in the insertion order of the source). -/
def buildActivity (p : Presence) : List (String × Json) :=
  (if p.type ≥ 0 ∧ p.type ≤ 5 then
    [("type", Json.num p.type),
     ("status_display_type", Json.num p.status_display_type)]
  else [])
  ++ (if p.name ≠ "" then [("name", Json.str p.name)] else [])
  ++ (if p.state ≠ "" then [("state", Json.str p.state)] else [])
  ++ (if p.details ≠ "" then [("details", Json.str p.details)] else [])
  ++ (if p.start_timestamp > 0 ∨ p.end_timestamp > 0 then
      [("timestamps", Json.obj (
        (if p.start_timestamp > 0 then
          [("start", Json.num p.start_timestamp)] else [])
        ++ (if p.end_timestamp > 0 then
          [("end", Json.num p.end_timestamp)] else [])))]
    else [])
  ++ (if p.large_image_key ≠ "" ∨ p.large_image_text ≠ "" ∨
        p.small_image_key ≠ "" ∨ p.small_image_text ≠ "" then
      [("assets", Json.obj (
        (if p.large_image_key ≠ "" then
          [("large_image", Json.str p.large_image_key)] else [])
        ++ (if p.large_image_text ≠ "" then
          [("large_text", Json.str p.large_image_text)] else [])
        ++ (if p.small_image_key ≠ "" then
          [("small_image", Json.str p.small_image_key)] else [])
        ++ (if p.small_image_text ≠ "" then
          [("small_text", Json.str p.small_image_text)] else [])))]
    else [])
  ++ (if p.party_id ≠ "" ∨ p.party_size > 0 ∨ p.party_max > 0 ∨
        p.party_privacy > 0 then
      [("party", Json.obj (
        (if p.party_id ≠ "" then [("id", Json.str p.party_id)] else [])
        ++ (if p.party_size > 0 ∧ p.party_max > 0 then
          [("size", Json.arr [Json.num p.party_size, Json.num p.party_max])]
        else [])
        ++ (if p.party_privacy > 0 then
          [("privacy", Json.num p.party_privacy)] else [])))]
    else [])
  ++ (if p.match_secret ≠ "" ∨ p.join_secret ≠ "" ∨ p.spectate_secret ≠ "" then
      [("secrets", Json.obj (
        (if p.match_secret ≠ "" then
          [("match", Json.str p.match_secret)] else [])
        ++ (if p.join_secret ≠ "" then
          [("join", Json.str p.join_secret)] else [])
        ++ (if p.spectate_secret ≠ "" then
          [("spectate", Json.str p.spectate_secret)] else [])))]
    else [])
  ++ [("instance", Json.bool p.instance_)]

/-- The full `SET_ACTIVITY` document of `CreatePresenceMessage` for the current
nonce value: `QString::number(nonce_++)` stringifies the current counter (the
increment is performed by the caller model `updatePresence`). -/
def presenceJson (pid : Int) (nonce : Nat) (p : Presence) : Json :=
  Json.obj [("cmd", Json.str "SET_ACTIVITY"),
    ("nonce", Json.str (toString nonce)),
    ("args", Json.obj [("pid", Json.num pid),
      ("activity", Json.obj (buildActivity p))])]

/-- `CreateHandshakeMessage`: the document `{"v":1,"client_id":<id>}`. -/
def handshakeJson (appId : String) : Json :=
  Json.obj [("v", Json.num kRpcVersion), ("client_id", Json.str appId)]

/-- External capabilities: Qt's JSON parser and compact serializer, the process
id, and the application id the object was constructed with. -/
structure Env where
  parse : List Byte → Option Json
  serialize : Json → List Byte
  pid : Int
  appId : String

/-- The mutable members of `DiscordRPC`: connection state, nonce counter,
stored reconnect delay (ms), receive buffer, whether the single-shot reconnect
timer is armed, and whether the local socket is away from
`UnconnectedState`. -/
structure RPC where
  state : ConnState
  nonce : Nat
  reconnect_delay : Nat
  read_buffer : List Byte
  timer_armed : Bool
  socket_up : Bool
deriving DecidableEq, Repr

/-- The freshly constructed object: `Disconnected`, nonce 1, delay at the
floor, empty buffer, timer unarmed, socket unconnected. -/
def initRPC : RPC :=
  { state := ConnState.Disconnected, nonce := 1,
    reconnect_delay := kReconnectMinDelayMs, read_buffer := [],
    timer_armed := false, socket_up := false }

/-- `DiscordRPC::ScheduleReconnect`: arm the single-shot timer with the current
delay, then double the stored delay, clamped to the ceiling. -/
def scheduleReconnect (r : RPC) : RPC :=
  { r with
    timer_armed := true,
    reconnect_delay := min (r.reconnect_delay * 2) kReconnectMaxDelayMs }

/-- `DiscordRPC::ConnectToDiscord`, with the outcome `ok` of the candidate
endpoint scan supplied by the environment: a no-op unless `Disconnected`; on a
successful `waitForConnected` the socket is up and the `connected` signal will
be delivered later (state `Connecting`); on exhaustion of the candidate list
the state returns to `Disconnected` and a reconnect is scheduled. -/
def connectToDiscord (ok : Bool) (r : RPC) : RPC :=
  if r.state ≠ ConnState.Disconnected then r
  else if ok then { r with state := ConnState.Connecting, socket_up := true }
  else scheduleReconnect { r with state := ConnState.Disconnected }

/-- `DiscordRPC::Initialize`: a no-op unless `Disconnected`. -/
def initializeRPC (ok : Bool) (r : RPC) : RPC :=
  if r.state ≠ ConnState.Disconnected then r else connectToDiscord ok r

/-- `DiscordRPC::Shutdown`: stop the reconnect timer, ask the socket to
disconnect if it is not already unconnected, and force state `Disconnected`. -/
def shutdown (r : RPC) : RPC × List Effect :=
  ({ r with
     timer_armed := false,
     state := ConnState.Disconnected,
     socket_up := false },
   if r.socket_up then [Effect.disconnect] else [])

/-- `DiscordRPC::OnConnected`: enter `SentHandshake`, reset the stored delay to
the floor, and send the handshake frame (opcode 0). -/
def onConnected (env : Env) (r : RPC) : RPC × List Effect :=
  ({ r with
     state := ConnState.SentHandshake,
     reconnect_delay := kReconnectMinDelayMs },
   [Effect.write (encodeFrame 0 (env.serialize (handshakeJson env.appId)))])

/-- `DiscordRPC::OnDisconnected`: back to `Disconnected`, clear the receive
buffer, schedule a reconnect. -/
def onDisconnected (r : RPC) : RPC :=
  scheduleReconnect { r with
    state := ConnState.Disconnected,
    read_buffer := [],
    socket_up := false }

/-- `DiscordRPC::OnReconnectTimer`: the single-shot timer has fired (so it is
no longer armed); try to connect again. -/
def onReconnectTimer (ok : Bool) (r : RPC) : RPC :=
  connectToDiscord ok { r with timer_armed := false }

/-- `DiscordRPC::OnReadyRead`: append the newly arrived bytes to the receive
buffer and run `ProcessIncomingData`; `none` when that loop never returns. -/
def onReadyRead (env : Env) (data : List Byte) (r : RPC) :
    Option (RPC × List Effect) :=
  match processIncomingData env.parse r.state (r.read_buffer ++ data) with
  | none => none
  | some res =>
    some ({ r with state := res.state, read_buffer := res.buffer }, res.actions)

/-- `DiscordRPC::UpdatePresence`: only in state `Connected` is the message
built (consuming one nonce) and sent as an opcode-1 frame by `SendFrame`;
otherwise nothing at all happens. -/
def updatePresence (env : Env) (p : Presence) (r : RPC) : RPC × List Effect :=
  if r.state = ConnState.Connected then
    ({ r with nonce := r.nonce + 1 },
     [Effect.write (encodeFrame 1 (env.serialize (presenceJson env.pid r.nonce p)))])
  else (r, [])

/-- `DiscordRPC::ClearPresence`: `UpdatePresence` with a default-constructed
presence. -/
def clearPresence (env : Env) (r : RPC) : RPC × List Effect :=
  updatePresence env defaultPresence r

/-- Reactor notifications delivered to the object: the public API calls and
the socket / timer signals. Connection attempts carry the outcome of the
candidate scan. -/
inductive Ev where
  | initializeE (ok : Bool)
  | shutdownE
  | connectedE
  | disconnectedE
  | errorE
  | readyReadE (data : List Byte)
  | timerE (ok : Bool)
  | updateE (p : Presence)
  | clearE

/-- Delivery of one notification. `none` only when the decode loop diverges
(in which case the C++ object never observes a next state). `OnError` is a
no-op in the source. -/
def stepF (env : Env) : Ev → RPC → Option (RPC × List Effect)
  | Ev.initializeE ok, r => some (initializeRPC ok r, [])
  | Ev.shutdownE, r => some (shutdown r)
  | Ev.connectedE, r => some (onConnected env r)
  | Ev.disconnectedE, r => some (onDisconnected r, [])
  | Ev.errorE, r => some (r, [])
  | Ev.readyReadE data, r => onReadyRead env data r
  | Ev.timerE ok, r => some (onReconnectTimer ok r, [])
  | Ev.updateE p, r => some (updatePresence env p r)
  | Ev.clearE, r => some (clearPresence env r)

/-- States reachable from the freshly constructed object by any sequence of
delivered notifications. -/
inductive Reachable (env : Env) : RPC → Prop where
  | init : Reachable env initRPC
  | next {r r' : RPC} {e : Ev} {acts : List Effect} :
      Reachable env r → stepF env e r = some (r', acts) → Reachable env r'

/-- A parser recognizing every payload as the READY dispatch object (used for
concrete traces). -/
def readyParse : List Byte → Option Json :=
  fun _ => some (Json.obj [("cmd", Json.str "DISPATCH"),
    ("evt", Json.str "READY")])

/-- A parser that fails on every payload. -/
def noParse : List Byte → Option Json := fun _ => none

/-- A concrete environment for traces: every payload parses as READY,
serialization is irrelevant to the properties at issue and collapsed. -/
def envReady : Env :=
  { parse := readyParse, serialize := fun _ => [], pid := 0, appId := "1234" }

/-- An 8-byte receive buffer: a complete header with opcode 1 and declared
payload length `2^31`, and no payload bytes buffered. -/
def hugeLenBuf : List Byte := toLE4 1 ++ toLE4 2147483648

/-- The sample presence of the specification: name and state set, everything
else default. -/
def samplePresence : Presence :=
  { defaultPresence with name := "Listening", state := "Track — Artist" }

/-- A machine whose connect attempt just succeeded after a few failed attempts
doubled the stored delay: `Connecting`, delay 8000 ms. -/
def connectingRPC : RPC :=
  { state := ConnState.Connecting, nonce := 3, reconnect_delay := 8000,
    read_buffer := [], timer_armed := false, socket_up := true }

/-- A connected machine about to be shut down. -/
def connectedRPC : RPC :=
  { state := ConnState.Connected, nonce := 7,
    reconnect_delay := kReconnectMinDelayMs, read_buffer := [],
    timer_armed := false, socket_up := true }

/-- Intermediate states of the concrete trace init → Connecting →
SentHandshake → Connected under `envReady`. -/
def traceR1 : RPC := { initRPC with state := ConnState.Connecting, socket_up := true }

def traceR2 : RPC := { traceR1 with state := ConnState.SentHandshake }

def traceR3 : RPC := { traceR2 with state := ConnState.Connected }

theorem fromLE4_toLE4 (n : Nat) : fromLE4 (toLE4 n) = n % 4294967296 := by
  simp only [fromLE4, toLE4, mkByte]
  omega

theorem toLE4_length (n : Nat) : (toLE4 n).length = 4 := rfl

theorem encodeFrame_length (op : Nat) (p : List Byte) :
    (encodeFrame op p).length = 8 + p.length := by
  simp [encodeFrame, toLE4]
  omega

theorem u32ToInt_of_lt {n : Nat} (h : n < 2147483648) : u32ToInt n = (n : Int) := by
  simp [u32ToInt, h]

theorem fromLE4_lt (bs : List Byte) : fromLE4 bs < 4294967296 := by
  unfold fromLE4
  split
  case _ a b c d =>
    have ha := a.isLt
    have hb := b.isLt
    have hc := c.isLt
    have hd := d.isLt
    omega
  case _ => omega

theorem processLoop_encodeFrame_cons (parse : List Byte → Option Json)
    (fuel : Nat) (st : ConnState) (op : Nat) (p rest : List Byte)
    (hop : op < 4294967296) (hp : p.length < 2147483648) :
    processLoop parse (fuel + 1) st (encodeFrame op p ++ rest) =
      Option.map (fun r =>
        ⟨r.state, r.buffer, dispatchActions op p.length p ++ r.actions,
         (op, p) :: r.events⟩)
        (processLoop parse fuel (dispatchState parse st op p) rest) := by
  have hassoc : encodeFrame op p ++ rest =
      (toLE4 op ++ toLE4 p.length) ++ (p ++ rest) := by
    simp [encodeFrame]
  have hlen : (encodeFrame op p ++ rest).length = 8 + (p.length + rest.length) := by
    simp [encodeFrame, toLE4]
    omega
  have htake4 : (encodeFrame op p ++ rest).take 4 = toLE4 op := by
    rw [hassoc, List.append_assoc]
    exact List.take_left' rfl
  have hdrop4 : (encodeFrame op p ++ rest).drop 4 = toLE4 p.length ++ (p ++ rest) := by
    rw [hassoc, List.append_assoc]
    exact List.drop_left' rfl
  have htake44 : ((encodeFrame op p ++ rest).drop 4).take 4 = toLE4 p.length := by
    rw [hdrop4]
    exact List.take_left' rfl
  have hdrop8 : (encodeFrame op p ++ rest).drop 8 = p ++ rest := by
    rw [hassoc]
    exact List.drop_left' rfl
  have hdata : ((encodeFrame op p ++ rest).drop 8).take p.length = p := by
    rw [hdrop8]
    exact List.take_left' rfl
  have hmod : (8 + p.length) % 4294967296 = 8 + p.length := Nat.mod_eq_of_lt (by omega)
  have hrest : (encodeFrame op p ++ rest).drop ((8 + p.length) % 4294967296) = rest := by
    rw [hmod, ← List.drop_drop, hdrop8]
    exact List.drop_left' rfl
  have hopmod : op % 4294967296 = op := Nat.mod_eq_of_lt hop
  have hlenmod : p.length % 4294967296 = p.length := Nat.mod_eq_of_lt (by omega)
  have hc1 : ¬ ((encodeFrame op p ++ rest).length < 8) := by omega
  simp only [processLoop, htake4, htake44, fromLE4_toLE4, hopmod, hlenmod, hdata, hrest,
    u32ToInt_of_lt hp, if_neg hc1]
  have hc2 : ¬ (((encodeFrame op p ++ rest).length : Int) < 8 + (p.length : Int)) := by
    rw [hlen]
    push_cast
    omega
  rw [if_neg hc2]
  cases processLoop parse fuel (dispatchState parse st op p) rest <;> rfl

theorem processLoop_mono (parse : List Byte → Option Json) :
    ∀ (fuel : Nat) (st : ConnState) (buf : List Byte) (r : DecRes),
    processLoop parse fuel st buf = some r →
    processLoop parse (fuel + 1) st buf = some r := by
  intro fuel
  induction fuel with
  | zero =>
    intro st buf r h
    simp [processLoop] at h
  | succ n ih =>
    intro st buf r h
    rw [processLoop] at h
    conv_lhs => rw [processLoop]
    simp only [] at h ⊢
    split_ifs at h ⊢ with h1 h2
    · exact h
    · exact h
    · set st2 := dispatchState parse st (fromLE4 (buf.take 4))
        ((buf.drop 8).take (fromLE4 ((buf.drop 4).take 4))) with hst2
      set buf2 := buf.drop ((8 + fromLE4 ((buf.drop 4).take 4)) % 4294967296) with hbuf2
      cases hrec : processLoop parse n st2 buf2 with
      | none =>
        rw [hrec] at h
        simp at h
      | some r2 =>
        rw [hrec] at h
        rw [ih st2 buf2 r2 hrec]
        exact h

theorem processLoop_mono_le (parse : List Byte → Option Json)
    {fuel fuel' : Nat} {st : ConnState} {buf : List Byte} {r : DecRes}
    (hle : fuel ≤ fuel') (h : processLoop parse fuel st buf = some r) :
    processLoop parse fuel' st buf = some r := by
  induction fuel' with
  | zero =>
    have : fuel = 0 := by omega
    subst this
    simp [processLoop] at h
  | succ n ih =>
    rcases Nat.eq_or_lt_of_le hle with heq | hlt
    · subst heq
      exact h
    · exact processLoop_mono parse n st buf r (ih (by omega))

theorem processLoop_flatFrames (parse : List Byte → Option Json)
    (frames : List (Nat × List Byte)) :
    ∀ st : ConnState,
    (∀ f ∈ frames, f.1 < 4294967296 ∧ f.2.length < 2147483648) →
    processLoop parse (frames.length + 1) st (flatFrames frames) =
      some ⟨runState parse st frames, [], runActions frames, frames⟩ := by
  induction frames with
  | nil =>
    intro st _
    simp [flatFrames, runState, runActions, processLoop]
  | cons f fs ih =>
    intro st hwf
    have hf := hwf f (List.mem_cons_self f fs)
    have hflat : flatFrames (f :: fs) = encodeFrame f.1 f.2 ++ flatFrames fs := by
      simp [flatFrames]
    rw [hflat, show (f :: fs).length + 1 = (fs.length + 1) + 1 from by simp]
    rw [processLoop_encodeFrame_cons parse (fs.length + 1) st f.1 f.2 (flatFrames fs)
      hf.1 hf.2]
    rw [ih (dispatchState parse st f.1 f.2) (fun g hg => hwf g (List.mem_cons_of_mem f hg))]
    simp [runState, runActions]

theorem flatFrames_length_ge (frames : List (Nat × List Byte)) :
    frames.length ≤ (flatFrames frames).length := by
  induction frames with
  | nil => simp [flatFrames]
  | cons f fs ih =>
    have : flatFrames (f :: fs) = encodeFrame f.1 f.2 ++ flatFrames fs := by
      simp [flatFrames]
    rw [this]
    have := encodeFrame_length f.1 f.2
    simp only [List.length_append, List.length_cons]
    omega

theorem processLoop_leftover (parse : List Byte → Option Json) :
    ∀ (fuel : Nat) (st : ConnState) (buf : List Byte) (r : DecRes),
    processLoop parse fuel st buf = some r →
    r.buffer.length < 8 ∨
      r.buffer.length < 8 + fromLE4 ((r.buffer.drop 4).take 4) := by
  intro fuel
  induction fuel with
  | zero =>
    intro st buf r h
    simp [processLoop] at h
  | succ n ih =>
    intro st buf r h
    rw [processLoop] at h
    simp only [] at h
    split_ifs at h with h1 h2
    · injection h with h3
      subst h3
      left
      exact h1
    · injection h with h3
      subst h3
      by_cases hl : fromLE4 ((buf.drop 4).take 4) < 2147483648
      · right
        rw [u32ToInt_of_lt hl] at h2
        have : (buf.length : Int) < ((8 + fromLE4 ((buf.drop 4).take 4) : Nat) : Int) := by
          push_cast
          omega
        exact_mod_cast this
      · exfalso
        have hb := fromLE4_lt ((buf.drop 4).take 4)
        simp only [u32ToInt, if_neg hl] at h2
        omega
    · set st2 := dispatchState parse st (fromLE4 (buf.take 4))
        ((buf.drop 8).take (fromLE4 ((buf.drop 4).take 4))) with hst2
      set buf2 := buf.drop ((8 + fromLE4 ((buf.drop 4).take 4)) % 4294967296) with hbuf2
      cases hrec : processLoop parse n st2 buf2 with
      | none =>
        rw [hrec] at h
        simp at h
      | some r2 =>
        rw [hrec] at h
        simp only [] at h
        injection h with h3
        subst h3
        exact ih st2 buf2 r2 hrec

theorem handleMessage_state_cases (parse : List Byte → Option Json)
    (st : ConnState) (data : List Byte) :
    handleMessage parse st data = st ∨
      (st = ConnState.SentHandshake ∧
        handleMessage parse st data = ConnState.Connected) := by
  cases hp : parse data with
  | none => simp [handleMessage, hp]
  | some j =>
    cases j with
    | null => simp [handleMessage, hp]
    | bool b => simp [handleMessage, hp]
    | num n => simp [handleMessage, hp]
    | str s => simp [handleMessage, hp]
    | arr elems => simp [handleMessage, hp]
    | obj fields =>
      simp only [handleMessage, hp]
      split_ifs with hst hready
      · right
        exact ⟨hst, rfl⟩
      · left
        rfl
      · left
        rfl

theorem dispatchState_state_cases (parse : List Byte → Option Json)
    (st : ConnState) (op : Nat) (data : List Byte) :
    dispatchState parse st op data = st ∨
      (st = ConnState.SentHandshake ∧
        dispatchState parse st op data = ConnState.Connected) := by
  unfold dispatchState
  split_ifs with h
  · exact handleMessage_state_cases parse st data
  · left
    rfl

theorem processLoop_state_cases (parse : List Byte → Option Json) :
    ∀ (fuel : Nat) (st : ConnState) (buf : List Byte) (r : DecRes),
    processLoop parse fuel st buf = some r →
    r.state = st ∨
      (st = ConnState.SentHandshake ∧ r.state = ConnState.Connected) := by
  intro fuel
  induction fuel with
  | zero =>
    intro st buf r h
    simp [processLoop] at h
  | succ n ih =>
    intro st buf r h
    rw [processLoop] at h
    simp only [] at h
    split_ifs at h with h1 h2
    · injection h with h3
      subst h3
      left
      rfl
    · injection h with h3
      subst h3
      left
      rfl
    · set st2 := dispatchState parse st (fromLE4 (buf.take 4))
        ((buf.drop 8).take (fromLE4 ((buf.drop 4).take 4))) with hst2
      set buf2 := buf.drop ((8 + fromLE4 ((buf.drop 4).take 4)) % 4294967296) with hbuf2
      cases hrec : processLoop parse n st2 buf2 with
      | none =>
        rw [hrec] at h
        simp at h
      | some r2 =>
        rw [hrec] at h
        simp only [] at h
        injection h with h3
        subst h3
        have hr2 := ih st2 buf2 r2 hrec
        have hd := dispatchState_state_cases parse st (fromLE4 (buf.take 4))
          ((buf.drop 8).take (fromLE4 ((buf.drop 4).take 4)))
        rw [← hst2] at hd
        dsimp only
        rcases hr2 with h4 | ⟨h4a, h4b⟩ <;> rcases hd with h5 | ⟨h5a, h5b⟩
        · left
          rw [h4, h5]
        · right
          exact ⟨h5a, by rw [h4, h5b]⟩
        · rw [h5] at h4a
          right
          exact ⟨h4a, h4b⟩
        · right
          exact ⟨h5a, h4b⟩

theorem stepF_delay_floor (env : Env) (e : Ev) (r r' : RPC) (acts : List Effect)
    (hstep : stepF env e r = some (r', acts))
    (hr : (r.state = ConnState.SentHandshake ∨ r.state = ConnState.Connected) →
      r.reconnect_delay = kReconnectMinDelayMs) :
    (r'.state = ConnState.SentHandshake ∨ r'.state = ConnState.Connected) →
    r'.reconnect_delay = kReconnectMinDelayMs := by
  intro hs
  cases e with
  | initializeE ok =>
    simp only [stepF, Option.some.injEq, Prod.mk.injEq] at hstep
    obtain ⟨h1, h2⟩ := hstep
    subst h1
    by_cases hd : r.state = ConnState.Disconnected
    · cases ok with
      | true => simp [initializeRPC, connectToDiscord, hd] at hs
      | false => simp [initializeRPC, connectToDiscord, scheduleReconnect, hd] at hs
    · have hid : initializeRPC ok r = r := by simp [initializeRPC, hd]
      rw [hid] at hs ⊢
      exact hr hs
  | shutdownE =>
    simp only [stepF, shutdown, Option.some.injEq, Prod.mk.injEq] at hstep
    obtain ⟨h1, h2⟩ := hstep
    subst h1
    simp at hs
  | connectedE =>
    simp only [stepF, onConnected, Option.some.injEq, Prod.mk.injEq] at hstep
    obtain ⟨h1, h2⟩ := hstep
    subst h1
    rfl
  | disconnectedE =>
    simp only [stepF, Option.some.injEq, Prod.mk.injEq] at hstep
    obtain ⟨h1, h2⟩ := hstep
    subst h1
    simp [onDisconnected, scheduleReconnect] at hs
  | errorE =>
    simp only [stepF, Option.some.injEq, Prod.mk.injEq] at hstep
    obtain ⟨h1, h2⟩ := hstep
    subst h1
    exact hr hs
  | readyReadE data =>
    simp only [stepF] at hstep
    cases hdec : processIncomingData env.parse r.state (r.read_buffer ++ data) with
    | none =>
      simp [onReadyRead, hdec] at hstep
    | some res =>
      simp only [onReadyRead, hdec, Option.some.injEq, Prod.mk.injEq] at hstep
      obtain ⟨h1, h2⟩ := hstep
      subst h1
      simp only [processIncomingData] at hdec
      have hsc := processLoop_state_cases env.parse _ r.state _ res hdec
      dsimp only at hs ⊢
      rcases hsc with hA | ⟨hB, _⟩
      · rw [hA] at hs
        exact hr hs
      · exact hr (Or.inl hB)
  | timerE ok =>
    simp only [stepF, Option.some.injEq, Prod.mk.injEq] at hstep
    obtain ⟨h1, h2⟩ := hstep
    subst h1
    by_cases hd : r.state = ConnState.Disconnected
    · cases ok with
      | true => simp [onReconnectTimer, connectToDiscord, hd] at hs
      | false => simp [onReconnectTimer, connectToDiscord, scheduleReconnect, hd] at hs
    · have hid : onReconnectTimer ok r = { r with timer_armed := false } := by
        simp [onReconnectTimer, connectToDiscord, hd]
      rw [hid] at hs ⊢
      exact hr hs
  | updateE p =>
    simp only [stepF] at hstep
    by_cases hc : r.state = ConnState.Connected
    · simp only [updatePresence, if_pos hc, Option.some.injEq, Prod.mk.injEq] at hstep
      obtain ⟨h1, h2⟩ := hstep
      subst h1
      exact hr hs
    · simp only [updatePresence, if_neg hc, Option.some.injEq, Prod.mk.injEq] at hstep
      obtain ⟨h1, h2⟩ := hstep
      subst h1
      exact hr hs
  | clearE =>
    simp only [stepF, clearPresence] at hstep
    by_cases hc : r.state = ConnState.Connected
    · simp only [updatePresence, if_pos hc, Option.some.injEq, Prod.mk.injEq] at hstep
      obtain ⟨h1, h2⟩ := hstep
      subst h1
      exact hr hs
    · simp only [updatePresence, if_neg hc, Option.some.injEq, Prod.mk.injEq] at hstep
      obtain ⟨h1, h2⟩ := hstep
      subst h1
      exact hr hs

theorem reachable_delay_floor (env : Env) (r : RPC) (h : Reachable env r) :
    (r.state = ConnState.SentHandshake ∨ r.state = ConnState.Connected) →
    r.reconnect_delay = kReconnectMinDelayMs := by
  induction h with
  | init => intro _; rfl
  | next hre hstep ih => exact stepF_delay_floor _ _ _ _ _ hstep ih

theorem processLoop_nil (parse : List Byte → Option Json) (st : ConnState) :
    ∀ fuel : Nat, 1 ≤ fuel → processLoop parse fuel st [] = some ⟨st, [], [], []⟩ := by
  intro fuel h
  cases fuel with
  | zero => omega
  | succ n =>
    rw [processLoop]
    simp

theorem processIncomingData_single (parse : List Byte → Option Json)
    (st : ConnState) (op : Nat) (p : List Byte)
    (hop : op < 4294967296) (hp : p.length < 2147483648) :
    processIncomingData parse st (encodeFrame op p) =
      some ⟨dispatchState parse st op p, [], dispatchActions op p.length p, [(op, p)]⟩ := by
  have h := processLoop_flatFrames parse [(op, p)] st (by
    intro f hf
    simp only [List.mem_singleton] at hf
    subst hf
    exact ⟨hop, hp⟩)
  have hflat : flatFrames [(op, p)] = encodeFrame op p := by
    simp [flatFrames]
  have hrs : runState parse st [(op, p)] = dispatchState parse st op p := rfl
  have hra : runActions [(op, p)] = dispatchActions op p.length p := by
    simp [runActions]
  rw [hflat, hrs, hra] at h
  have hle : 2 ≤ (encodeFrame op p).length + 1 := by
    have := encodeFrame_length op p
    omega
  exact processLoop_mono_le parse hle h

theorem processIncomingData_short (parse : List Byte → Option Json)
    (st : ConnState) (buf : List Byte) (h : buf.length < 8) :
    processIncomingData parse st buf = some ⟨st, buf, [], []⟩ := by
  rw [processIncomingData, processLoop]
  simp only []
  rw [if_pos h]

theorem processIncomingData_wait (parse : List Byte → Option Json)
    (st : ConnState) (buf : List Byte)
    (h8 : ¬ buf.length < 8)
    (hlen : fromLE4 ((buf.drop 4).take 4) < 2147483648)
    (hshort : buf.length < 8 + fromLE4 ((buf.drop 4).take 4)) :
    processIncomingData parse st buf = some ⟨st, buf, [], []⟩ := by
  have hc : ((buf.length : Int) < 8 + u32ToInt (fromLE4 ((buf.drop 4).take 4))) := by
    rw [u32ToInt_of_lt hlen]
    omega
  rw [processIncomingData, processLoop]
  simp only []
  rw [if_neg h8, if_pos hc]

theorem min_pow_shift (d C n : Nat) :
    min (min (d * 2) C * 2 ^ n) C = min (d * 2 ^ (n + 1)) C := by
  rcases le_or_lt (d * 2) C with h | h
  · rw [Nat.min_eq_left h]
    have : d * 2 * 2 ^ n = d * 2 ^ (n + 1) := by ring
    rw [this]
  · have h2 : 0 < 2 ^ n := pow_pos (by norm_num) n
    have hC1 : C ≤ C * 2 ^ n := Nat.le_mul_of_pos_right C h2
    have hC2 : C ≤ d * 2 ^ (n + 1) := by
      have hstep : d * 2 ≤ d * 2 * 2 ^ n := Nat.le_mul_of_pos_right (d * 2) h2
      have heq : d * 2 * 2 ^ n = d * 2 ^ (n + 1) := by ring
      omega
    rw [Nat.min_eq_right (le_of_lt h), Nat.min_eq_right hC1, Nat.min_eq_right hC2]

theorem connectFail_iterate (n : Nat) :
    ∀ r : RPC, r.state = ConnState.Disconnected →
    r.reconnect_delay ≤ kReconnectMaxDelayMs →
    ((connectToDiscord false)^[n] r).state = ConnState.Disconnected ∧
    ((connectToDiscord false)^[n] r).reconnect_delay =
      min (r.reconnect_delay * 2 ^ n) kReconnectMaxDelayMs := by
  induction n with
  | zero =>
    intro r hd hdC
    simp only [Function.iterate_zero, id_eq]
    exact ⟨hd, by rw [pow_zero, Nat.mul_one, Nat.min_eq_left hdC]⟩
  | succ n ih =>
    intro r hd hdC
    rw [Function.iterate_succ_apply]
    have hstep : connectToDiscord false r =
        scheduleReconnect { r with state := ConnState.Disconnected } := by
      simp [connectToDiscord, hd]
    rw [hstep]
    have h1 : (scheduleReconnect { r with state := ConnState.Disconnected }).state =
        ConnState.Disconnected := rfl
    have h2 : (scheduleReconnect { r with state := ConnState.Disconnected }).reconnect_delay =
        min (r.reconnect_delay * 2) kReconnectMaxDelayMs := rfl
    obtain ⟨ha, hb⟩ := ih (scheduleReconnect { r with state := ConnState.Disconnected })
      h1 (by rw [h2]; exact Nat.min_le_right _ _)
    refine ⟨ha, ?_⟩
    rw [hb, h2, min_pow_shift]

/-- C1: for every receive-buffer content consisting of K ≥ 2 complete encoded
frames concatenated and delivered in a single read, one decode pass emits
exactly K (opcode, payload) events, in the order the frames appear in the
buffer, each payload byte-for-byte equal to the original payload of its frame,
and consumes the whole buffer. The side conditions are the machine widths of
the encoder: opcodes are 32-bit values, payload sizes fit a C++ `int`. -/
theorem c1_coalesced_frames_decode (parse : List Byte → Option Json)
    (st : ConnState) (frames : List (Nat × List Byte))
    (hK : 2 ≤ frames.length)
    (hwf : ∀ f ∈ frames, f.1 < 4294967296 ∧ f.2.length < 2147483648) :
    processIncomingData parse st (flatFrames frames) =
      some ⟨runState parse st frames, [], runActions frames, frames⟩ := by
  have hbase := processLoop_flatFrames parse frames st hwf
  have hlen := flatFrames_length_ge frames
  exact processLoop_mono_le parse (by omega) hbase

/-- Witness for C1: two coalesced frames (a Frame-opcode frame with a one-byte
payload followed by a Pong-opcode frame with an empty payload) decode to
exactly those two events. -/
theorem c1_coalesced_frames_decode_witness :
    processIncomingData noParse ConnState.Disconnected
        (flatFrames [(1, [mkByte 65]), (4, [])]) =
      some ⟨runState noParse ConnState.Disconnected [(1, [mkByte 65]), (4, [])],
        [], runActions [(1, [mkByte 65]), (4, [])], [(1, [mkByte 65]), (4, [])]⟩ :=
  c1_coalesced_frames_decode noParse ConnState.Disconnected
    [(1, [mkByte 65]), (4, [])] (by decide) (by decide)

/-- C2: the code contradicts the claim (and its own "wait for more data"
comment) at the failing input `hugeLenBuf` — a complete 8-byte header declaring
opcode 1 and payload length 2^31 with zero payload bytes buffered. The claim
requires zero events and an unchanged buffer; instead the signed cast
`static_cast<int>(length)` makes the have-full-message check pass, so the pass
emits one event with a truncated (empty) payload and removes the whole buffer.
The first conjunct shows the declared length really exceeds the buffered
payload bytes; the second evaluates the decode pass at the failing input. -/
theorem c2_truncation_at_huge_length :
    8 + fromLE4 ((hugeLenBuf.drop 4).take 4) > hugeLenBuf.length ∧
    processIncomingData noParse ConnState.Disconnected hugeLenBuf =
      some ⟨ConnState.Disconnected, [], [], [(1, [])]⟩ := by
  constructor
  · decide
  · decide

/-- C3 (counterexample): encoding the specification's sample presence (name
and state set, everything else default) yields an `activity` object that
contains the key `type` — the default `type = 0` passes the 0–5 range check —
so the activity does not contain only the keys `name`, `state`, `instance`. -/
theorem c3_counterexample :
    "type" ∈ (buildActivity samplePresence).map Prod.fst ∧
    ¬ ("type" ∈ (["name", "state", "instance"] : List String)) := by
  constructor
  · decide
  · decide

/-- C3 (amended): encoding a Presence whose name and state are non-empty and
whose every other field is default produces an activity object containing
exactly the keys `type` (0), `status_display_type` (0), `name`, `state` and
`instance` (false), in this order — and in particular no timestamps, assets,
party, or secrets keys. -/
theorem c3_activity_keys (p : Presence)
    (htype : p.type = 0) (hsdt : p.status_display_type = 0)
    (hname : p.name ≠ "") (hstate : p.state ≠ "")
    (hdetails : p.details = "") (hstart : p.start_timestamp = 0)
    (hend : p.end_timestamp = 0)
    (hlik : p.large_image_key = "") (hlit : p.large_image_text = "")
    (hsik : p.small_image_key = "") (hsit : p.small_image_text = "")
    (hpid : p.party_id = "") (hpsize : p.party_size = 0)
    (hpmax : p.party_max = 0) (hppriv : p.party_privacy = 0)
    (hms : p.match_secret = "") (hjs : p.join_secret = "")
    (hss : p.spectate_secret = "") (hinst : p.instance_ = false) :
    (buildActivity p).map Prod.fst =
      ["type", "status_display_type", "name", "state", "instance"] ∧
    jValue (buildActivity p) "instance" = some (Json.bool false) := by
  have hact : buildActivity p =
      [("type", Json.num 0), ("status_display_type", Json.num 0),
       ("name", Json.str p.name), ("state", Json.str p.state),
       ("instance", Json.bool false)] := by
    simp [buildActivity, htype, hsdt, hname, hstate, hdetails, hstart, hend,
      hlik, hlit, hsik, hsit, hpid, hpsize, hpmax, hppriv, hms, hjs, hss, hinst]
  rw [hact]
  constructor
  · rfl
  · rfl

/-- Witness for C3 (amended) at the specification's sample presence. -/
theorem c3_activity_keys_witness :
    (buildActivity samplePresence).map Prod.fst =
      ["type", "status_display_type", "name", "state", "instance"] ∧
    jValue (buildActivity samplePresence) "instance" = some (Json.bool false) :=
  c3_activity_keys samplePresence rfl rfl (by decide) (by decide) rfl rfl rfl
    rfl rfl rfl rfl rfl rfl rfl rfl rfl rfl rfl rfl

theorem stepF_enter_connected_delay (env : Env) (e : Ev) (r r' : RPC)
    (acts : List Effect) (hstep : stepF env e r = some (r', acts))
    (hne : r.state ≠ ConnState.Connected)
    (hc : r'.state = ConnState.Connected) :
    r'.reconnect_delay = r.reconnect_delay := by
  cases e with
  | initializeE ok =>
    simp only [stepF, Option.some.injEq, Prod.mk.injEq] at hstep
    obtain ⟨h1, h2⟩ := hstep
    subst h1
    by_cases hd : r.state = ConnState.Disconnected
    · cases ok with
      | true => simp [initializeRPC, connectToDiscord, hd] at hc
      | false => simp [initializeRPC, connectToDiscord, scheduleReconnect, hd] at hc
    · simp [initializeRPC, hd]
  | shutdownE =>
    simp only [stepF, shutdown, Option.some.injEq, Prod.mk.injEq] at hstep
    obtain ⟨h1, h2⟩ := hstep
    subst h1
    simp at hc
  | connectedE =>
    simp only [stepF, onConnected, Option.some.injEq, Prod.mk.injEq] at hstep
    obtain ⟨h1, h2⟩ := hstep
    subst h1
    simp at hc
  | disconnectedE =>
    simp only [stepF, Option.some.injEq, Prod.mk.injEq] at hstep
    obtain ⟨h1, h2⟩ := hstep
    subst h1
    simp [onDisconnected, scheduleReconnect] at hc
  | errorE =>
    simp only [stepF, Option.some.injEq, Prod.mk.injEq] at hstep
    obtain ⟨h1, h2⟩ := hstep
    subst h1
    rfl
  | readyReadE data =>
    simp only [stepF] at hstep
    cases hdec : processIncomingData env.parse r.state (r.read_buffer ++ data) with
    | none => simp [onReadyRead, hdec] at hstep
    | some res =>
      simp only [onReadyRead, hdec, Option.some.injEq, Prod.mk.injEq] at hstep
      obtain ⟨h1, h2⟩ := hstep
      subst h1
      rfl
  | timerE ok =>
    simp only [stepF, Option.some.injEq, Prod.mk.injEq] at hstep
    obtain ⟨h1, h2⟩ := hstep
    subst h1
    by_cases hd : r.state = ConnState.Disconnected
    · cases ok with
      | true => simp [onReconnectTimer, connectToDiscord, hd] at hc
      | false => simp [onReconnectTimer, connectToDiscord, scheduleReconnect, hd] at hc
    · simp [onReconnectTimer, connectToDiscord, hd]
  | updateE p =>
    simp only [stepF] at hstep
    by_cases hcc : r.state = ConnState.Connected
    · exact absurd hcc hne
    · simp only [updatePresence, if_neg hcc, Option.some.injEq, Prod.mk.injEq] at hstep
      obtain ⟨h1, h2⟩ := hstep
      subst h1
      rfl
  | clearE =>
    simp only [stepF, clearPresence] at hstep
    by_cases hcc : r.state = ConnState.Connected
    · exact absurd hcc hne
    · simp only [updatePresence, if_neg hcc, Option.some.injEq, Prod.mk.injEq] at hstep
      obtain ⟨h1, h2⟩ := hstep
      subst h1
      rfl

/-- C4 (counterexample): the step in which the transport connect succeeds and
the handshake is sent — `OnConnected`, which enters HandshakeSent — does not
leave the stored delay unchanged: from a connect attempt that succeeded with
the stored delay at 8000 ms, it resets the delay. -/
theorem c4_counterexample :
    (onConnected envReady connectingRPC).1.state = ConnState.SentHandshake ∧
    (onConnected envReady connectingRPC).1.reconnect_delay ≠
      connectingRPC.reconnect_delay := by
  constructor
  · rfl
  · decide

/-- C4 (amended): the stored reconnect delay is reset to the floor by the step
in which the transport connect succeeds and the handshake is sent (entering
HandshakeSent); the step that enters Connected leaves the stored delay
unchanged; and in every reachable Connected state the stored delay equals the
floor, so the delay equals the floor after the step that enters Connected. -/
theorem c4_delay_reset_on_handshake :
    (∀ (env : Env) (r : RPC),
      (onConnected env r).1.reconnect_delay = kReconnectMinDelayMs) ∧
    (∀ (env : Env) (e : Ev) (r r' : RPC) (acts : List Effect),
      stepF env e r = some (r', acts) → r.state ≠ ConnState.Connected →
      r'.state = ConnState.Connected → r'.reconnect_delay = r.reconnect_delay) ∧
    (∀ (env : Env) (r : RPC), Reachable env r →
      r.state = ConnState.Connected →
      r.reconnect_delay = kReconnectMinDelayMs) := by
  refine ⟨fun env r => rfl, ?_, ?_⟩
  · intro env e r r' acts hstep hne hc
    exact stepF_enter_connected_delay env e r r' acts hstep hne hc
  · intro env r hre hc
    exact reachable_delay_floor env r hre (Or.inr hc)

/-- Witness for C4 (amended): along the concrete trace init → Connecting →
SentHandshake → Connected the Connected state carries the floor delay. -/
theorem c4_delay_reset_on_handshake_witness :
    traceR3.reconnect_delay = kReconnectMinDelayMs := by
  have h1 : stepF envReady (Ev.initializeE true) initRPC = some (traceR1, []) := by
    decide
  have h2 : stepF envReady Ev.connectedE traceR1 =
      some (traceR2, [Effect.write (encodeFrame 0 [])]) := by
    decide
  have h3 : stepF envReady (Ev.readyReadE (encodeFrame 1 [])) traceR2 =
      some (traceR3, []) := by
    decide
  exact c4_delay_reset_on_handshake.2.2 envReady traceR3
    (Reachable.next (Reachable.next (Reachable.next Reachable.init h1) h2) h3) rfl

/-- C5: the code contradicts the claim. Shutdown itself cancels the timer and
is idempotent (last two conjuncts: a second Shutdown, or a Shutdown with no
prior Initialize, does nothing beyond guaranteeing Disconnected and no
timer), but when the disconnect notification caused by Shutdown's own
transport close is delivered, OnDisconnected unconditionally re-arms the
reconnect timer, and its firing starts a new connect attempt — a reconnect
after explicit teardown, which the claim forbids. -/
theorem c5_shutdown_not_terminal :
    (shutdown connectedRPC).1.timer_armed = false ∧
    (onDisconnected (shutdown connectedRPC).1).timer_armed = true ∧
    (onReconnectTimer true (onDisconnected (shutdown connectedRPC).1)).state =
      ConnState.Connecting ∧
    (∀ r : RPC, shutdown (shutdown r).1 = ((shutdown r).1, [])) ∧
    shutdown initRPC = (initRPC, []) :=
  ⟨rfl, rfl, rfl, fun r => rfl, rfl⟩

/-- C6: after n consecutive failed connection attempts starting with the
stored delay at the floor, the stored delay equals min(floor · 2^n, ceiling);
and a successful connection (the connected step) resets the stored delay to
the floor. -/
theorem c6_backoff_doubling :
    (∀ (n : Nat) (r : RPC), r.state = ConnState.Disconnected →
      r.reconnect_delay = kReconnectMinDelayMs →
      ((connectToDiscord false)^[n] r).reconnect_delay =
        min (kReconnectMinDelayMs * 2 ^ n) kReconnectMaxDelayMs) ∧
    (∀ (env : Env) (r : RPC),
      (onConnected env r).1.reconnect_delay = kReconnectMinDelayMs) := by
  constructor
  · intro n r hd hF
    have h := connectFail_iterate n r hd (by rw [hF]; decide)
    rw [hF] at h
    exact h.2
  · intro env r
    rfl

/-- Witness for C6: three consecutive failures from the freshly constructed
object leave the stored delay at min(500 · 8, 60000) = 4000 ms. -/
theorem c6_backoff_doubling_witness :
    ((connectToDiscord false)^[3] initRPC).reconnect_delay =
      min (kReconnectMinDelayMs * 2 ^ 3) kReconnectMaxDelayMs :=
  c6_backoff_doubling.1 3 initRPC rfl rfl

/-- C7: a Frame-opcode (1) payload that parses as a JSON object whose string
fields satisfy cmd = "DISPATCH" and evt = "READY" moves the machine from
SentHandshake to Connected; received in any other state it leaves the state
unchanged (and in every state the pass produces no write and exactly the one
event). -/
theorem c7_ready_transition (parse : List Byte → Option Json) (st : ConnState)
    (data : List Byte) (fields : List (String × Json))
    (hlen : data.length < 2147483648)
    (hparse : parse data = some (Json.obj fields))
    (hcmd : jValue fields "cmd" = some (Json.str "DISPATCH"))
    (hevt : jValue fields "evt" = some (Json.str "READY")) :
    processIncomingData parse st (encodeFrame 1 data) =
      some ⟨if st = ConnState.SentHandshake then ConnState.Connected else st,
        [], [], [(1, data)]⟩ := by
  have hh : handleMessage parse st data =
      if st = ConnState.SentHandshake then ConnState.Connected else st := by
    simp [handleMessage, hparse, jObjString, hcmd, hevt]
  have h := processIncomingData_single parse st 1 data (by norm_num) hlen
  rw [h]
  simp [dispatchState, dispatchActions, hh]

/-- Witness for C7: the READY dispatch in state SentHandshake yields
Connected. -/
theorem c7_ready_transition_witness :
    processIncomingData readyParse ConnState.SentHandshake (encodeFrame 1 []) =
      some ⟨if ConnState.SentHandshake = ConnState.SentHandshake then
          ConnState.Connected else ConnState.SentHandshake,
        [], [], [(1, [])]⟩ :=
  c7_ready_transition readyParse ConnState.SentHandshake []
    [("cmd", Json.str "DISPATCH"), ("evt", Json.str "READY")]
    (by decide) rfl rfl rfl

/-- C8: calling UpdatePresence — and hence ClearPresence — while the state is
not Connected writes no bytes to the transport and leaves every member of the
object unchanged (state, nonce counter, receive buffer, backoff delay,
timer); in particular the dropped call consumes no nonce. -/
theorem c8_update_dropped_when_not_connected (env : Env) (p : Presence)
    (r : RPC) (h : r.state ≠ ConnState.Connected) :
    updatePresence env p r = (r, []) ∧ clearPresence env r = (r, []) := by
  constructor
  · simp [updatePresence, h]
  · simp [clearPresence, updatePresence, h]

/-- Witness for C8 in the freshly constructed (Disconnected) state. -/
theorem c8_update_dropped_witness :
    updatePresence envReady defaultPresence initRPC = (initRPC, []) ∧
    clearPresence envReady initRPC = (initRPC, []) :=
  c8_update_dropped_when_not_connected envReady defaultPresence initRPC (by decide)

/-- C9: whenever a complete Ping frame (opcode 3) with payload P stands at the
decode position, in any connection state, that loop iteration writes back
exactly one Pong frame (opcode 4) carrying the identical length field and the
byte-identical payload, leaves the connection state unchanged, and continues
with the rest of the buffer; a pass over a buffer holding exactly one complete
Ping frame therefore produces exactly the one Pong write and no state
change. -/
theorem c9_ping_echoes_pong (parse : List Byte → Option Json) (fuel : Nat)
    (st : ConnState) (p rest : List Byte) (hp : p.length < 2147483648) :
    processLoop parse (fuel + 1) st (encodeFrame 3 p ++ rest) =
      Option.map (fun r =>
        ⟨r.state, r.buffer,
         Effect.write (toLE4 4 ++ toLE4 p.length ++ p) :: r.actions,
         (3, p) :: r.events⟩) (processLoop parse fuel st rest) ∧
    processIncomingData parse st (encodeFrame 3 p) =
      some ⟨st, [], [Effect.write (toLE4 4 ++ toLE4 p.length ++ p)], [(3, p)]⟩ := by
  constructor
  · have h := processLoop_encodeFrame_cons parse fuel st 3 p rest (by norm_num) hp
    simpa [dispatchState, dispatchActions] using h
  · have h := processIncomingData_single parse st 3 p (by norm_num) hp
    rw [h]
    simp [dispatchState, dispatchActions]

/-- Witness for C9: a single one-byte Ping in state Connected. -/
theorem c9_ping_echoes_pong_witness :
    processLoop noParse (0 + 1) ConnState.Connected
        (encodeFrame 3 [mkByte 7] ++ []) =
      Option.map (fun r =>
        (⟨r.state, r.buffer,
          Effect.write (toLE4 4 ++ toLE4 [mkByte 7].length ++ [mkByte 7]) :: r.actions,
          (3, [mkByte 7]) :: r.events⟩ : DecRes))
        (processLoop noParse 0 ConnState.Connected []) ∧
    processIncomingData noParse ConnState.Connected (encodeFrame 3 [mkByte 7]) =
      some ⟨ConnState.Connected, [],
        [Effect.write (toLE4 4 ++ toLE4 [mkByte 7].length ++ [mkByte 7])],
        [(3, [mkByte 7])]⟩ :=
  c9_ping_echoes_pong noParse 0 ConnState.Connected [mkByte 7] [] (by decide)

/-- C10: decoding a Close frame (opcode 2) requests the transport disconnect
but does not terminate the decode loop: the iteration continues with the rest
of the buffer, so every further complete frame in the same chunk is still
extracted and dispatched; in particular a Ping following a Close in the same
chunk still produces the Pong write. -/
theorem c10_close_does_not_stop_loop (parse : List Byte → Option Json)
    (fuel : Nat) (st : ConnState) (p q : List Byte)
    (hp : p.length < 2147483648) (hq : q.length < 2147483648) :
    processLoop parse (fuel + 1) st (encodeFrame 2 p ++ q) =
      Option.map (fun r =>
        ⟨r.state, r.buffer, Effect.disconnect :: r.actions, (2, p) :: r.events⟩)
        (processLoop parse fuel st q) ∧
    processIncomingData parse st (encodeFrame 2 [] ++ encodeFrame 3 q) =
      some ⟨st, [],
        [Effect.disconnect, Effect.write (toLE4 4 ++ toLE4 q.length ++ q)],
        [(2, []), (3, q)]⟩ := by
  constructor
  · have h := processLoop_encodeFrame_cons parse fuel st 2 p q (by norm_num) hp
    simpa [dispatchState, dispatchActions] using h
  · have hwf : ∀ f ∈ [((2 : Nat), ([] : List Byte)), (3, q)],
        f.1 < 4294967296 ∧ f.2.length < 2147483648 := by
      intro f hf
      simp only [List.mem_cons, List.not_mem_nil, or_false] at hf
      rcases hf with rfl | rfl
      · exact ⟨by norm_num, by norm_num⟩
      · exact ⟨by norm_num, hq⟩
    have h := processLoop_flatFrames parse [(2, []), (3, q)] st hwf
    have hflat : flatFrames [(2, []), (3, q)] =
        encodeFrame 2 [] ++ encodeFrame 3 q := by
      simp [flatFrames]
    have hrs : runState parse st [(2, []), (3, q)] = st := by
      simp [runState, dispatchState]
    have hra : runActions [(2, []), (3, q)] =
        [Effect.disconnect, Effect.write (toLE4 4 ++ toLE4 q.length ++ q)] := by
      simp [runActions, dispatchActions]
    rw [hflat, hrs, hra] at h
    refine processLoop_mono_le parse ?_ h
    simp only [List.length_append, List.length_cons, List.length_nil,
      encodeFrame_length]
    omega

/-- Witness for C10: a Close frame followed by a one-byte Ping in the same
chunk, in state Connected. -/
theorem c10_close_does_not_stop_loop_witness :
    processLoop noParse (0 + 1) ConnState.Connected
        (encodeFrame 2 [] ++ [mkByte 9]) =
      Option.map (fun r =>
        (⟨r.state, r.buffer, Effect.disconnect :: r.actions,
          (2, []) :: r.events⟩ : DecRes))
        (processLoop noParse 0 ConnState.Connected [mkByte 9]) ∧
    processIncomingData noParse ConnState.Connected
        (encodeFrame 2 [] ++ encodeFrame 3 [mkByte 9]) =
      some ⟨ConnState.Connected, [],
        [Effect.disconnect,
         Effect.write (toLE4 4 ++ toLE4 [mkByte 9].length ++ [mkByte 9])],
        [(2, []), (3, [mkByte 9])]⟩ :=
  c10_close_does_not_stop_loop noParse 0 ConnState.Connected [] [mkByte 9]
    (by decide) (by decide)
